import Mathlib

/-!
Verification of the `StockPerformance` analytics engine
(`src/stock_performance.py`) against its natural-language specification.

The engine holds a table of daily return rows
`(date, ticker, return, bench_return)` together with scalar parameters
(`days_in_year = 365.25`, `risk_free_rate = 0.00007`, the requested
`start_date`/`end_date` and the derived inclusive `interval`), and exposes
five per-ticker statistics: total return, CAGR, CAPM alpha, CAPM beta and
daily Sharpe ratio.

Modelling conventions:
* Calendar dates are integers (days since an arbitrary epoch); the only
  date arithmetic the code performs is `(end_date - start_date).days + 1`.
* Float arithmetic is modelled exactly over `ℚ`.  Where the Python code
  produces an irrational float (a rational power in `calc_cagrs`, a square
  root in `calc_sharpe_ratios`) the embedding carries the exact rational
  arguments of the transcendental operation (`CagrVal`, `SharpeVal`) and
  theorems state the real-number denotation explicitly.
* `pandas.groupby('ticker')` sorts the group keys in ascending ticker
  order (its default `sort=True`) and preserves the original row order
  inside each group; `tickersOf`/`rowsOf` model exactly that.
* `sklearn.linear_model.LinearRegression.fit` computes the least-squares
  solution of the centred system via `lstsq`, which returns the
  minimum-norm solution (slope `0`, intercept `mean y`) when the centred
  design is the zero matrix (fewer than 2 rows, or zero-variance `x`).
  No exception is raised in that case.  `capmSlope` models this exactly.
-/

/-- One row of the `daily_returns` table.  `ret` embeds the Python column
named `return` (a Lean keyword); `bench_return` the benchmark column. -/
structure ReturnsRow where
  date : Int
  ticker : String
  ret : ℚ
  bench_return : ℚ
deriving DecidableEq, Repr

/-- The state of a `StockPerformance` object after `__init__` (lines 82-88
of `stock_performance.py`): the scalar parameters and the assembled
`daily_returns` table. -/
structure StockPerformance where
  days_in_year : ℚ
  risk_free_rate : ℚ
  start_date : Int
  end_date : Int
  interval : Int
  daily_returns : List ReturnsRow
deriving DecidableEq, Repr

/-- `__init__`, lines 82-88: the database query, benchmark merge and /100
rescaling are I/O performed by the excluded collaborator; the core receives
the already-assembled table and sets the state variables exactly as coded:
`days_in_year = 365.25`, `risk_free_rate = 0.00007`,
`interval = (end_date - start_date).days + 1`.  Note that no validation of
the date range is performed anywhere in `__init__`. -/
def mkStockPerformance (table : List ReturnsRow) (start_date end_date : Int) :
    StockPerformance :=
  { days_in_year := 1461 / 4
    risk_free_rate := 7 / 100000
    start_date := start_date
    end_date := end_date
    interval := end_date - start_date + 1
    daily_returns := table }

/-- Lexicographic order on the character lists of two strings: the order
pandas sorts group keys by (Python compares strings by code points).  It
agrees with Lean's `String` order but, unlike `String.ltb`, it reduces. -/
def strDataLe (a b : String) : Prop := a.data ≤ b.data

instance : DecidableRel strDataLe := fun a b =>
  inferInstanceAs (Decidable (a.data ≤ b.data))

instance : IsTrans String strDataLe :=
  ⟨fun _ _ _ h h' => le_trans h h'⟩

instance : IsTotal String strDataLe :=
  ⟨fun a b => le_total a.data b.data⟩

instance : IsAntisymm String strDataLe :=
  ⟨fun a b h h' => by
    cases a with
    | mk da =>
      cases b with
      | mk db =>
        have : da = db := le_antisymm h h'
        rw [this]⟩

/-- The group keys produced by `groupby(['ticker'])`: the distinct tickers
of the table, in ascending ticker order (pandas' default `sort=True`). -/
def tickersOf (table : List ReturnsRow) : List String :=
  List.insertionSort strDataLe (table.map (fun r => r.ticker)).dedup

/-- The rows of one ticker group, in their original table order (pandas
preserves within-group order). -/
def rowsOf (table : List ReturnsRow) (t : String) : List ReturnsRow :=
  table.filter (fun r => r.ticker = t)

/-- `calc_total_returns` (lines 103-109): per ticker, the compounded total
return `(1 + x).prod() - 1` over that ticker's rows, keyed by the sorted
distinct tickers. -/
def calc_total_returns (sp : StockPerformance) : List (String × ℚ) :=
  (tickersOf sp.daily_returns).map fun t =>
    (t, ((rowsOf sp.daily_returns t).map (fun r => 1 + r.ret)).prod - 1)

/-- The exact content of one float cell of the `cagr` column: the Python
value is `base ** exp - 1`.  The pair is carried exactly because a
rational power of a rational is irrational in general. -/
structure CagrVal where
  base : ℚ
  exp : ℚ
deriving DecidableEq, Repr

/-- `calc_cagrs` (lines 111-117): starts from `calc_total_returns` and maps
each total return `tr` to the float `(1 + tr) ** (days_in_year / interval)
- 1`, represented exactly as `⟨1 + tr, days_in_year / interval⟩`. -/
def calc_cagrs (sp : StockPerformance) : List (String × CagrVal) :=
  (calc_total_returns sp).map fun p =>
    (p.1, ⟨1 + p.2, sp.days_in_year / (sp.interval : ℚ)⟩)

/-- Arithmetic mean of a list, `np.mean` / the mean sklearn centres by.
(Only ever applied to nonempty lists by the code; `[]` gives the `ℚ`
junk value `0/0 = 0`.) -/
def listMean (xs : List ℚ) : ℚ := xs.sum / (xs.length : ℚ)

/-- Population variance (`np.std(x) ** 2`, `ddof = 0`): mean squared
deviation, dividing by `n`, not `n - 1`. -/
def popVar (xs : List ℚ) : ℚ :=
  ((xs.map (fun x => (x - listMean xs) ^ 2)).sum) / (xs.length : ℚ)

/-- Centred second moment `Σ (xᵢ - mean x)²` of the regressor. -/
def sxx (xs : List ℚ) : ℚ := (xs.map (fun x => (x - listMean xs) ^ 2)).sum

/-- Centred cross moment `Σ (xᵢ - mean x) (yᵢ - mean y)`. -/
def sxy (xs ys : List ℚ) : ℚ :=
  (List.zipWith (fun x y => (x - listMean xs) * (y - listMean ys)) xs ys).sum

/-- The slope `reg.coef_` fitted by `LinearRegression().fit(X, y)`:
`Σ(x-x̄)(y-ȳ) / Σ(x-x̄)²` on the centred data; when the centred design is
zero (`sxx = 0`, i.e. fewer than 2 samples or zero-variance `x`) `lstsq`
returns the minimum-norm solution `0`. -/
def capmSlope (xs ys : List ℚ) : ℚ :=
  if sxx xs = 0 then 0 else sxy xs ys / sxx xs

/-- The intercept `reg.intercept_`: `mean y - slope * mean x`. -/
def capmIntercept (xs ys : List ℚ) : ℚ :=
  listMean ys - capmSlope xs ys * listMean xs

/-- `capm_regression` (lines 91-101).  The body reads only the fixed
`bench_return` and `return` columns of `data`, `self.risk_free_rate` and
`stat`; the `port_returns` and `bench_returns` parameters are never used.
Returns `none` for a `stat` other than `beta`/`alpha` (Python falls off
the end and returns `None`). -/
def capm_regression (sp : StockPerformance) (data : List ReturnsRow)
    (port_returns bench_returns stat : String) : Option ℚ :=
  let X := data.map (fun r => r.bench_return - sp.risk_free_rate)
  let y := data.map (fun r => r.ret - sp.risk_free_rate)
  if stat = "beta" then some (capmSlope X y)
  else if stat = "alpha" then some (capmIntercept X y)
  else none

/-- `calc_alphas` (lines 119-126): `groupby('ticker').apply(capm_regression,
'return', 'bench_return', 'alpha')`. -/
def calc_alphas (sp : StockPerformance) : List (String × Option ℚ) :=
  (tickersOf sp.daily_returns).map fun t =>
    (t, capm_regression sp (rowsOf sp.daily_returns t)
          "return" "bench_return" "alpha")

/-- `calc_betas` (lines 128-135): `groupby('ticker').apply(capm_regression,
'return', 'bench_return', 'beta')`. -/
def calc_betas (sp : StockPerformance) : List (String × Option ℚ) :=
  (tickersOf sp.daily_returns).map fun t =>
    (t, capm_regression sp (rowsOf sp.daily_returns t)
          "return" "bench_return" "beta")

/-- The exact content of one float cell of the `sharpe_ratio` column: the
Python value is `num / sqrt varPop` (`np.std` is the square root of the
population variance).  The pair is carried exactly because the square root
is irrational in general; `varPop = 0` is the float division by zero
(`Inf`/`NaN`), which the code performs without raising. -/
structure SharpeVal where
  num : ℚ
  varPop : ℚ
deriving DecidableEq, Repr

/-- `calc_sharpe_ratios` (lines 137-144): per ticker,
`(np.mean(x) - risk_free_rate) / np.std(x)` over that ticker's returns,
with the population standard deviation. -/
def calc_sharpe_ratios (sp : StockPerformance) : List (String × SharpeVal) :=
  (tickersOf sp.daily_returns).map fun t =>
    let rets := (rowsOf sp.daily_returns t).map (fun r => r.ret)
    (t, ⟨listMean rets - sp.risk_free_rate, popVar rets⟩)

/-! ### Generic lookup lemmas for the keyed result lists -/

theorem lookup_map_key {α : Type} (ts : List String) (f : String → α)
    (t : String) :
    ((ts.map fun s => (s, f s)).lookup t) =
      if t ∈ ts then some (f t) else none := by
  induction ts with
  | nil => simp [List.lookup]
  | cons s ts ih =>
      by_cases h : t = s
      · subst h
        simp [List.lookup]
      · have hbeq : (t == s) = false := by
          simp [h]
        simp [List.lookup, hbeq, ih, h]

theorem lookup_map_snd {α β : Type} (l : List (String × α)) (g : α → β)
    (t : String) :
    ((l.map fun p => (p.1, g p.2)).lookup t) = (l.lookup t).map g := by
  induction l with
  | nil => simp [List.lookup]
  | cons p l ih =>
      by_cases h : t = p.1
      · subst h
        simp [List.lookup]
      · have hbeq : (t == p.1) = false := by
          simp [h]
        simp [List.lookup, hbeq, ih]

theorem mem_tickersOf {table : List ReturnsRow} {t : String} :
    t ∈ tickersOf table ↔ t ∈ table.map (fun r => r.ticker) := by
  unfold tickersOf
  constructor
  · intro h
    exact (List.mem_dedup).mp ((List.perm_insertionSort _ _).mem_iff.mp h)
  · intro h
    exact (List.perm_insertionSort _ _).mem_iff.mpr ((List.mem_dedup).mpr h)

theorem rowsOf_eq_nil_iff (tbl : List ReturnsRow) (t : String) :
    rowsOf tbl t = [] ↔ t ∉ tbl.map (fun r => r.ticker) := by
  rw [rowsOf, List.filter_eq_nil_iff]
  constructor
  · intro h hmem
    obtain ⟨r, hr, hrt⟩ := List.mem_map.mp hmem
    have hcontra : ¬ (r.ticker = t) := by simpa using h r hr
    exact hcontra hrt
  · intro h r hr
    simp only [decide_eq_true_eq]
    intro hrt
    exact h (List.mem_map.mpr ⟨r, hr, hrt⟩)

theorem tickersOf_perm {tbl tbl' : List ReturnsRow} (h : tbl.Perm tbl') :
    tickersOf tbl = tickersOf tbl' := by
  apply List.eq_of_perm_of_sorted _
    (List.sorted_insertionSort strDataLe _) (List.sorted_insertionSort strDataLe _)
  exact (List.perm_insertionSort _ _).trans
    (((h.map _).dedup).trans (List.perm_insertionSort _ _).symm)

/-- C1: for every ticker `t` present in the table, `calc_total_returns`
maps `t` to the compounded total return `∏ (1 + rᵢ) - 1` over exactly
`t`'s rows; the result is invariant under any permutation of the table's
rows; and a ticker with zero rows is absent from the result (`lookup`
yields `none`), not zero-filled. -/
theorem calc_total_returns_correct (tbl tbl' : List ReturnsRow) (s e : Int)
    (t : String) (hperm : tbl.Perm tbl') :
    (t ∈ tickersOf tbl →
      (calc_total_returns (mkStockPerformance tbl s e)).lookup t =
        some ((((rowsOf tbl t).map fun r => 1 + r.ret).prod) - 1)) ∧
    (rowsOf tbl t = [] →
      (calc_total_returns (mkStockPerformance tbl s e)).lookup t = none) ∧
    calc_total_returns (mkStockPerformance tbl s e) =
      calc_total_returns (mkStockPerformance tbl' s e) := by
  refine ⟨?_, ?_, ?_⟩
  · intro hmem
    have h := lookup_map_key (tickersOf tbl)
      (fun u => (((rowsOf tbl u).map fun r => 1 + r.ret).prod) - 1) t
    simpa [calc_total_returns, mkStockPerformance, hmem] using h
  · intro hnil
    have hnmem : t ∉ tickersOf tbl := by
      rw [mem_tickersOf]
      exact (rowsOf_eq_nil_iff tbl t).mp hnil
    have h := lookup_map_key (tickersOf tbl)
      (fun u => (((rowsOf tbl u).map fun r => 1 + r.ret).prod) - 1) t
    simpa [calc_total_returns, mkStockPerformance, hnmem] using h
  · have hticks : tickersOf tbl = tickersOf tbl' := tickersOf_perm hperm
    show (tickersOf tbl).map _ = (tickersOf tbl').map _
    rw [hticks]
    apply List.map_congr_left
    intro u _
    have hrows : (rowsOf tbl u).Perm (rowsOf tbl' u) := hperm.filter _
    have hval : ((rowsOf tbl u).map fun r => 1 + r.ret).prod =
        ((rowsOf tbl' u).map fun r => 1 + r.ret).prod :=
      ((hrows.map _)).prod_eq
    simp [mkStockPerformance, hval]

/-- The spec's worked example: three days of returns `[0.01, -0.02, 0.03]`
for ticker `X`. -/
def tblC1 : List ReturnsRow :=
  [⟨0, "X", 1/100, 1/100⟩, ⟨1, "X", -2/100, 1/100⟩, ⟨2, "X", 3/100, 1/100⟩]

theorem calc_total_returns_correct_witness :
    (calc_total_returns (mkStockPerformance tblC1 0 9)).lookup "X" =
      some (9747/500000) ∧
    (calc_total_returns (mkStockPerformance tblC1 0 9)).lookup "Y" = none ∧
    calc_total_returns (mkStockPerformance tblC1 0 9) =
      calc_total_returns (mkStockPerformance tblC1.reverse 0 9) := by
  have hX := calc_total_returns_correct tblC1 tblC1.reverse 0 9 "X"
    (List.reverse_perm tblC1).symm
  have hY := calc_total_returns_correct tblC1 tblC1.reverse 0 9 "Y"
    (List.reverse_perm tblC1).symm
  refine ⟨?_, ?_, hX.2.2⟩
  · rw [hX.1 (by decide)]
    norm_num [tblC1, rowsOf, List.filter]
  · refine hY.2.1 ?_
    simp +decide [tblC1, rowsOf, List.filter]

theorem calc_cagrs_lookup (sp : StockPerformance) (t : String) :
    (calc_cagrs sp).lookup t = ((calc_total_returns sp).lookup t).map
      (fun q => (⟨1 + q, sp.days_in_year / (sp.interval : ℚ)⟩ : CagrVal)) := by
  rw [show calc_cagrs sp = (calc_total_returns sp).map
    (fun p => (p.1, (fun q => (⟨1 + q, sp.days_in_year /
      (sp.interval : ℚ)⟩ : CagrVal)) p.2)) from rfl]
  exact lookup_map_snd (calc_total_returns sp)
    (fun q => (⟨1 + q, sp.days_in_year / (sp.interval : ℚ)⟩ : CagrVal)) t

/-- C2: for every ticker `t`, `calc_cagrs` maps `t` to the float
`(1 + total_return) ** (days_in_year / interval) - 1` where `total_return`
is the value `calc_total_returns` gives for `t`, `days_in_year = 365.25`
and `interval` is the inclusive calendar-day count
`end_date - start_date + 1` fixed at construction, independent of how many
return rows `t` has. -/
theorem calc_cagrs_formula (tbl : List ReturnsRow) (s e : Int) (t : String)
    (tr : ℚ)
    (h : (calc_total_returns (mkStockPerformance tbl s e)).lookup t =
      some tr) :
    ∃ c : CagrVal,
      (calc_cagrs (mkStockPerformance tbl s e)).lookup t = some c ∧
      c.base = 1 + tr ∧
      c.exp = (1461 / 4 : ℚ) / ((e - s + 1 : ℤ) : ℚ) ∧
      Real.rpow (c.base : ℝ) (c.exp : ℝ) - 1 =
        Real.rpow (1 + (tr : ℝ))
          ((1461 / 4 : ℝ) / ((e : ℝ) - (s : ℝ) + 1)) - 1 := by
  refine ⟨⟨1 + tr, (1461 / 4 : ℚ) / ((e - s + 1 : ℤ) : ℚ)⟩, ?_, rfl, rfl, ?_⟩
  · rw [calc_cagrs_lookup, h]
    rfl
  · have h1 : ((1 + tr : ℚ) : ℝ) = 1 + (tr : ℝ) := by push_cast; ring
    have h2 : (((1461 / 4 : ℚ) / ((e - s + 1 : ℤ) : ℚ) : ℚ) : ℝ) =
        (1461 / 4 : ℝ) / ((e : ℝ) - (s : ℝ) + 1) := by push_cast; ring
    rw [show ((⟨1 + tr, (1461 / 4 : ℚ) / ((e - s + 1 : ℤ) : ℚ)⟩ :
      CagrVal)).base = (1 + tr : ℚ) from rfl]
    rw [show ((⟨1 + tr, (1461 / 4 : ℚ) / ((e - s + 1 : ℤ) : ℚ)⟩ :
      CagrVal)).exp = ((1461 / 4 : ℚ) / ((e - s + 1 : ℤ) : ℚ) : ℚ) from rfl]
    rw [h1, h2]

/-- A one-ticker table used to instantiate the CAGR formula theorem. -/
def tblC2 : List ReturnsRow := [⟨0, "X", 1/10, 1/10⟩]

theorem calc_cagrs_formula_witness :
    ∃ c : CagrVal,
      (calc_cagrs (mkStockPerformance tblC2 0 9)).lookup "X" = some c ∧
      c.base = 11/10 ∧ c.exp = 1461/40 := by
  have hlk : (calc_total_returns (mkStockPerformance tblC2 0 9)).lookup "X" =
      some (1/10) := by
    have h := lookup_map_key (tickersOf tblC2)
      (fun u => (((rowsOf tblC2 u).map fun r => 1 + r.ret).prod) - 1) "X"
    have hmem : "X" ∈ tickersOf tblC2 := by decide
    rw [show calc_total_returns (mkStockPerformance tblC2 0 9) =
      (tickersOf tblC2).map
        (fun u => (u, (((rowsOf tblC2 u).map fun r => 1 + r.ret).prod) - 1))
      from rfl, h, if_pos hmem]
    norm_num [tblC2, rowsOf, List.filter]
  obtain ⟨c, hc, hb, he, _⟩ := calc_cagrs_formula tblC2 0 9 "X" (1/10) hlk
  refine ⟨c, hc, ?_, ?_⟩
  · rw [hb]; norm_num
  · rw [he]; norm_num

/-- C6 (amended): `__init__` performs no date-range validation.  Even when
`end_date < start_date` construction succeeds, stores the table unchanged
and derives a non-positive `interval = end_date - start_date + 1`; no
`InvalidDateRangeError` is raised (no such error exists in the code). -/
theorem init_no_date_validation (tbl : List ReturnsRow) (s e : Int)
    (h : e < s) :
    (mkStockPerformance tbl s e).interval ≤ 0 ∧
    (mkStockPerformance tbl s e).interval = e - s + 1 ∧
    (mkStockPerformance tbl s e).daily_returns = tbl := by
  refine ⟨?_, rfl, rfl⟩
  show e - s + 1 ≤ 0
  omega

theorem init_no_date_validation_witness :
    (mkStockPerformance [] 5 3).interval ≤ 0 :=
  (init_no_date_validation [] 5 3 (by norm_num)).1

/-- A table with one row, constructed with `end_date < start_date`. -/
def spC6 : StockPerformance := mkStockPerformance [⟨0, "X", 1/10, 1/10⟩] 5 3

theorem init_date_counterexample :
    spC6.interval = -1 ∧
    calc_cagrs spC6 = [("X", ⟨11/10, -1461/4⟩)] := by
  constructor
  · rfl
  · rw [show calc_cagrs spC6 = (calc_total_returns spC6).map
      (fun p => (p.1, (⟨1 + p.2, spC6.days_in_year /
        (spC6.interval : ℚ)⟩ : CagrVal))) from rfl]
    rw [show calc_total_returns spC6 = (tickersOf spC6.daily_returns).map
      (fun u => (u, (((rowsOf spC6.daily_returns u).map
        fun r => 1 + r.ret).prod) - 1)) from rfl]
    rw [show tickersOf spC6.daily_returns = ["X"] from by decide]
    simp only [List.map_cons, List.map_nil]
    norm_num [spC6, mkStockPerformance, rowsOf, List.filter, CagrVal.mk.injEq]

/-- Each statistic method as a state transformer, pairing its result with
the post-call object state.  Each Python method body binds only local
variables (`returns_df`, `cagr_df`, `alpha_df`, `beta_df`, `sharpe_df`)
and contains no assignment to `self`, so the post-state is the receiver
unchanged. -/
def calc_total_returnsS (sp : StockPerformance) :
    List (String × ℚ) × StockPerformance := (calc_total_returns sp, sp)

/-- `calc_cagrs` as a state transformer (no assignment to `self`). -/
def calc_cagrsS (sp : StockPerformance) :
    List (String × CagrVal) × StockPerformance := (calc_cagrs sp, sp)

/-- `calc_alphas` as a state transformer (no assignment to `self`). -/
def calc_alphasS (sp : StockPerformance) :
    List (String × Option ℚ) × StockPerformance := (calc_alphas sp, sp)

/-- `calc_betas` as a state transformer (no assignment to `self`). -/
def calc_betasS (sp : StockPerformance) :
    List (String × Option ℚ) × StockPerformance := (calc_betas sp, sp)

/-- `calc_sharpe_ratios` as a state transformer (no assignment to
`self`). -/
def calc_sharpe_ratiosS (sp : StockPerformance) :
    List (String × SharpeVal) × StockPerformance := (calc_sharpe_ratios sp, sp)

/-- C9: none of the five statistic methods mutates the stored table or
parameters — the post-state of each call equals the pre-state — and
calling any method a second time on the resulting state returns an
identical result. -/
theorem stat_methods_pure (sp : StockPerformance) :
    (calc_total_returnsS sp).2 = sp ∧
    (calc_cagrsS sp).2 = sp ∧
    (calc_alphasS sp).2 = sp ∧
    (calc_betasS sp).2 = sp ∧
    (calc_sharpe_ratiosS sp).2 = sp ∧
    (calc_total_returnsS ((calc_total_returnsS sp).2)).1 =
      (calc_total_returnsS sp).1 ∧
    (calc_cagrsS ((calc_cagrsS sp).2)).1 = (calc_cagrsS sp).1 ∧
    (calc_alphasS ((calc_alphasS sp).2)).1 = (calc_alphasS sp).1 ∧
    (calc_betasS ((calc_betasS sp).2)).1 = (calc_betasS sp).1 ∧
    (calc_sharpe_ratiosS ((calc_sharpe_ratiosS sp).2)).1 =
      (calc_sharpe_ratiosS sp).1 :=
  ⟨rfl, rfl, rfl, rfl, rfl, rfl, rfl, rfl, rfl, rfl⟩

/-- C10: `capm_regression` never reads its `port_returns` and
`bench_returns` parameters — its result depends only on `data`, the stored
`risk_free_rate` and `stat` — so any two values passed for them give the
same result. -/
theorem capm_regression_ignores_column_args (sp : StockPerformance)
    (data : List ReturnsRow) (p1 b1 p2 b2 stat : String) :
    capm_regression sp data p1 b1 stat =
      capm_regression sp data p2 b2 stat := rfl

theorem map_fst_key {α : Type} (ts : List String) (f : String → α) :
    ((ts.map fun s => (s, f s)).map Prod.fst) = ts := by
  induction ts with
  | nil => rfl
  | cons s ts ih => simp [ih]

theorem map_fst_map_snd {α β : Type} (l : List (String × α)) (g : α → β) :
    ((l.map fun p => (p.1, g p.2)).map Prod.fst) = l.map Prod.fst := by
  induction l with
  | nil => rfl
  | cons p l ih => simp [ih]

/-- C7 (amended): all five statistic methods return results keyed by
exactly the same list of keys — the distinct tickers present in the table
— in the same order across all five methods; that shared order is the
ascending (lexicographic) ticker order produced by pandas' `groupby`
default `sort=True`, not the order in which tickers are first encountered
in the table. -/
theorem stat_keys_aligned (sp : StockPerformance) :
    (calc_total_returns sp).map Prod.fst = tickersOf sp.daily_returns ∧
    (calc_cagrs sp).map Prod.fst = tickersOf sp.daily_returns ∧
    (calc_alphas sp).map Prod.fst = tickersOf sp.daily_returns ∧
    (calc_betas sp).map Prod.fst = tickersOf sp.daily_returns ∧
    (calc_sharpe_ratios sp).map Prod.fst = tickersOf sp.daily_returns ∧
    (∀ t, t ∈ tickersOf sp.daily_returns ↔
      t ∈ sp.daily_returns.map (fun r => r.ticker)) ∧
    List.Sorted strDataLe (tickersOf sp.daily_returns) := by
  refine ⟨?_, ?_, ?_, ?_, ?_, fun t => mem_tickersOf,
    List.sorted_insertionSort strDataLe _⟩
  · exact map_fst_key (tickersOf sp.daily_returns)
      (fun t => ((rowsOf sp.daily_returns t).map (fun r => 1 + r.ret)).prod - 1)
  · exact (map_fst_map_snd (calc_total_returns sp)
      (fun q => (⟨1 + q, sp.days_in_year / (sp.interval : ℚ)⟩ : CagrVal))).trans
      (map_fst_key (tickersOf sp.daily_returns)
        (fun t => ((rowsOf sp.daily_returns t).map (fun r => 1 + r.ret)).prod - 1))
  · exact map_fst_key (tickersOf sp.daily_returns)
      (fun t => capm_regression sp (rowsOf sp.daily_returns t)
        "return" "bench_return" "alpha")
  · exact map_fst_key (tickersOf sp.daily_returns)
      (fun t => capm_regression sp (rowsOf sp.daily_returns t)
        "return" "bench_return" "beta")
  · have h : calc_sharpe_ratios sp = (tickersOf sp.daily_returns).map
        (fun t => (t,
          (⟨listMean ((rowsOf sp.daily_returns t).map (fun r => r.ret)) -
            sp.risk_free_rate,
            popVar ((rowsOf sp.daily_returns t).map (fun r => r.ret))⟩ :
            SharpeVal))) := rfl
    rw [h]
    exact map_fst_key _ _

/-- A table whose first-encountered ticker order is `["B", "A"]`. -/
def tblC7 : List ReturnsRow := [⟨0, "B", 1/10, 1/10⟩, ⟨1, "A", 2/10, 1/10⟩]

theorem stat_keys_counterexample :
    tblC7.map (fun r => r.ticker) = ["B", "A"] ∧
    (calc_total_returns (mkStockPerformance tblC7 0 9)).map Prod.fst =
      ["A", "B"] ∧
    (calc_total_returns (mkStockPerformance tblC7 0 9)).map Prod.fst ≠
      ["B", "A"] := by
  have hkeys : (calc_total_returns (mkStockPerformance tblC7 0 9)).map
      Prod.fst = tickersOf tblC7 :=
    map_fst_key (tickersOf tblC7)
      (fun t => ((rowsOf tblC7 t).map (fun r => 1 + r.ret)).prod - 1)
  have hticks : tickersOf tblC7 = ["A", "B"] := by decide
  refine ⟨by decide, ?_, ?_⟩
  · rw [hkeys, hticks]
  · rw [hkeys, hticks]
    decide

theorem capm_regression_beta (sp : StockPerformance) (data : List ReturnsRow)
    (p b : String) :
    capm_regression sp data p b "beta" = some (capmSlope
      (data.map (fun r => r.bench_return - sp.risk_free_rate))
      (data.map (fun r => r.ret - sp.risk_free_rate))) := rfl

theorem capm_regression_alpha (sp : StockPerformance) (data : List ReturnsRow)
    (p b : String) :
    capm_regression sp data p b "alpha" = some (capmIntercept
      (data.map (fun r => r.bench_return - sp.risk_free_rate))
      (data.map (fun r => r.ret - sp.risk_free_rate))) := rfl

theorem calc_betas_lookup (sp : StockPerformance) (t : String)
    (hmem : t ∈ tickersOf sp.daily_returns) :
    (calc_betas sp).lookup t = some (capm_regression sp
      (rowsOf sp.daily_returns t) "return" "bench_return" "beta") := by
  have h := lookup_map_key (tickersOf sp.daily_returns)
    (fun u => capm_regression sp (rowsOf sp.daily_returns u)
      "return" "bench_return" "beta") t
  rw [show calc_betas sp = (tickersOf sp.daily_returns).map
    (fun u => (u, capm_regression sp (rowsOf sp.daily_returns u)
      "return" "bench_return" "beta")) from rfl, h, if_pos hmem]

theorem calc_alphas_lookup (sp : StockPerformance) (t : String)
    (hmem : t ∈ tickersOf sp.daily_returns) :
    (calc_alphas sp).lookup t = some (capm_regression sp
      (rowsOf sp.daily_returns t) "return" "bench_return" "alpha") := by
  have h := lookup_map_key (tickersOf sp.daily_returns)
    (fun u => capm_regression sp (rowsOf sp.daily_returns u)
      "return" "bench_return" "alpha") t
  rw [show calc_alphas sp = (tickersOf sp.daily_returns).map
    (fun u => (u, capm_regression sp (rowsOf sp.daily_returns u)
      "return" "bench_return" "alpha")) from rfl, h, if_pos hmem]

/-- C4 (amended): for a ticker with fewer than 2 rows, or whose excess
benchmark returns `x` have zero variance (equivalently `Σ(x-x̄)² = 0`),
the code raises nothing: `lstsq` on the all-zero centred design returns
the minimum-norm solution, so `calc_betas` silently reports `0` and
`calc_alphas` silently reports the mean excess return for that ticker.
No `InsufficientDataError` exists anywhere in the code. -/
theorem capm_degenerate_min_norm (sp : StockPerformance) (t : String)
    (hmem : t ∈ tickersOf sp.daily_returns)
    (hdeg : sxx ((rowsOf sp.daily_returns t).map
      (fun r => r.bench_return - sp.risk_free_rate)) = 0) :
    (calc_betas sp).lookup t = some (some 0) ∧
    (calc_alphas sp).lookup t =
      some (some (listMean ((rowsOf sp.daily_returns t).map
        (fun r => r.ret - sp.risk_free_rate)))) := by
  constructor
  · rw [calc_betas_lookup sp t hmem, capm_regression_beta]
    rw [show capmSlope ((rowsOf sp.daily_returns t).map
      (fun r => r.bench_return - sp.risk_free_rate))
      ((rowsOf sp.daily_returns t).map (fun r => r.ret - sp.risk_free_rate)) =
      0 from by rw [capmSlope, if_pos hdeg]]
  · rw [calc_alphas_lookup sp t hmem, capm_regression_alpha]
    rw [show capmIntercept ((rowsOf sp.daily_returns t).map
      (fun r => r.bench_return - sp.risk_free_rate))
      ((rowsOf sp.daily_returns t).map (fun r => r.ret - sp.risk_free_rate)) =
      listMean ((rowsOf sp.daily_returns t).map
        (fun r => r.ret - sp.risk_free_rate)) from by
      rw [capmIntercept, capmSlope, if_pos hdeg]; ring]

/-- A table whose only ticker `X` has a single row: the claim says this
must raise `InsufficientDataError`; the code instead fits it. -/
def spC4 : StockPerformance := mkStockPerformance [⟨0, "X", 1/100, 2/100⟩] 0 9

theorem capm_degenerate_counterexample :
    calc_betas spC4 = [("X", some 0)] ∧
    calc_alphas spC4 = [("X", some (993/100000))] := by
  have hticks : tickersOf spC4.daily_returns = ["X"] := by decide
  have hrows : rowsOf spC4.daily_returns "X" = [⟨0, "X", 1/100, 2/100⟩] := by
    simp +decide [spC4, mkStockPerformance, rowsOf, List.filter]
  constructor
  · rw [show calc_betas spC4 = (tickersOf spC4.daily_returns).map
      (fun u => (u, capm_regression spC4 (rowsOf spC4.daily_returns u)
        "return" "bench_return" "beta")) from rfl, hticks]
    simp only [List.map_cons, List.map_nil]
    rw [hrows, capm_regression_beta]
    norm_num [capmSlope, sxx, listMean, spC4, mkStockPerformance]
  · rw [show calc_alphas spC4 = (tickersOf spC4.daily_returns).map
      (fun u => (u, capm_regression spC4 (rowsOf spC4.daily_returns u)
        "return" "bench_return" "alpha")) from rfl, hticks]
    simp only [List.map_cons, List.map_nil]
    rw [hrows, capm_regression_alpha]
    norm_num [capmIntercept, capmSlope, sxx, sxy, listMean, spC4,
      mkStockPerformance]

theorem capm_degenerate_min_norm_witness :
    (calc_betas spC4).lookup "X" = some (some 0) ∧
    (calc_alphas spC4).lookup "X" = some (some (993/100000)) := by
  have h := capm_degenerate_min_norm spC4 "X" (by decide)
    (by norm_num +decide [spC4, mkStockPerformance, rowsOf, List.filter, sxx,
      listMean])
  refine ⟨h.1, ?_⟩
  rw [h.2]
  norm_num +decide [spC4, mkStockPerformance, rowsOf, List.filter, listMean]

theorem calc_sharpe_ratios_eq (sp : StockPerformance) :
    calc_sharpe_ratios sp = (tickersOf sp.daily_returns).map
      (fun t => (t,
        (⟨listMean ((rowsOf sp.daily_returns t).map (fun r => r.ret)) -
          sp.risk_free_rate,
          popVar ((rowsOf sp.daily_returns t).map (fun r => r.ret))⟩ :
          SharpeVal))) := rfl

/-- C5 (amended): for every ticker `t` present in the table,
`calc_sharpe_ratios` reports the float `(mean(return) - risk_free_rate) /
std(return)` over `t`'s rows with the population (divide-by-`n`) standard
deviation — carried exactly as the pair (numerator, population variance),
the float value being `num / sqrt varPop`.  When all of `t`'s returns are
identical the code performs this division with `std = 0` anyway (a float
`Inf`/`NaN`), raising no error: see the zero-variance counterexample. -/
theorem sharpe_formula (sp : StockPerformance) (t : String)
    (hmem : t ∈ tickersOf sp.daily_returns) :
    (calc_sharpe_ratios sp).lookup t =
      some ⟨listMean ((rowsOf sp.daily_returns t).map (fun r => r.ret)) -
        sp.risk_free_rate,
        popVar ((rowsOf sp.daily_returns t).map (fun r => r.ret))⟩ := by
  have h := lookup_map_key (tickersOf sp.daily_returns)
    (fun u => (⟨listMean ((rowsOf sp.daily_returns u).map (fun r => r.ret)) -
      sp.risk_free_rate,
      popVar ((rowsOf sp.daily_returns u).map (fun r => r.ret))⟩ : SharpeVal))
    t
  rw [calc_sharpe_ratios_eq, h, if_pos hmem]

/-- A two-row table with non-degenerate returns for the Sharpe witness. -/
def spC5w : StockPerformance :=
  mkStockPerformance [⟨0, "X", 1/100, 1/100⟩, ⟨1, "X", 3/100, 2/100⟩] 0 9

theorem sharpe_formula_witness :
    (calc_sharpe_ratios spC5w).lookup "X" = some ⟨1993/100000, 1/10000⟩ := by
  rw [sharpe_formula spC5w "X" (by decide)]
  have hrows : rowsOf spC5w.daily_returns "X" =
      [⟨0, "X", 1/100, 1/100⟩, ⟨1, "X", 3/100, 2/100⟩] := by
    simp +decide [spC5w, mkStockPerformance, rowsOf, List.filter]
  rw [hrows]
  norm_num [listMean, popVar, spC5w, mkStockPerformance, SharpeVal.mk.injEq]

/-- The spec's zero-variance example: returns `[0.01, 0.01, 0.01]` for one
ticker.  The claim says the Sharpe computation must raise a defined error;
the code instead divides by `np.std = 0` and still returns an entry for
the ticker (numerator `0.00993`, population variance `0`). -/
def spC5 : StockPerformance :=
  mkStockPerformance [⟨0, "X", 1/100, 1/100⟩, ⟨1, "X", 1/100, 2/100⟩,
    ⟨2, "X", 1/100, 3/100⟩] 0 9

theorem sharpe_zero_variance_counterexample :
    (calc_sharpe_ratios spC5).lookup "X" = some ⟨993/100000, 0⟩ := by
  have h := lookup_map_key (tickersOf spC5.daily_returns)
    (fun u => (⟨listMean ((rowsOf spC5.daily_returns u).map (fun r => r.ret)) -
      spC5.risk_free_rate,
      popVar ((rowsOf spC5.daily_returns u).map (fun r => r.ret))⟩ :
      SharpeVal)) "X"
  rw [calc_sharpe_ratios_eq, h, if_pos (by decide)]
  have hrows : rowsOf spC5.daily_returns "X" =
      [⟨0, "X", 1/100, 1/100⟩, ⟨1, "X", 1/100, 2/100⟩,
        ⟨2, "X", 1/100, 3/100⟩] := by
    simp +decide [spC5, mkStockPerformance, rowsOf, List.filter]
  rw [hrows]
  norm_num [listMean, popVar, spC5, mkStockPerformance, SharpeVal.mk.injEq]

/-- The result of one shared regression fit: both coefficients together. -/
structure CapmFit where
  alpha : ℚ
  beta : ℚ
deriving DecidableEq, Repr

/-- Spec-side slope, written independently of the implementation with the
textbook closed form `beta = (n·Σxy - Σx·Σy) / (n·Σx² - (Σx)²)` of the
least-squares slope of `y = alpha + beta·x`. -/
def specBeta (xs ys : List ℚ) : ℚ :=
  ((xs.length : ℚ) * (List.zipWith (fun x y => x * y) xs ys).sum -
    xs.sum * ys.sum) /
  ((xs.length : ℚ) * (xs.map (fun x => x ^ 2)).sum - xs.sum ^ 2)

/-- The single shared OLS fit per ticker demanded by the spec (§4.1, §9):
fit `y = alpha + beta·x` once, by minimizing squared residuals, and return
both coefficients together; `alpha = (Σy - beta·Σx)/n`. -/
def specSharedFit (xs ys : List ℚ) : CapmFit :=
  ⟨(ys.sum - specBeta xs ys * xs.sum) / (xs.length : ℚ), specBeta xs ys⟩

theorem sum_map_sq_sub (xs : List ℚ) (a : ℚ) :
    (xs.map (fun x => (x - a) ^ 2)).sum =
      (xs.map (fun x => x ^ 2)).sum - 2 * a * xs.sum +
        (xs.length : ℚ) * a ^ 2 := by
  induction xs with
  | nil => simp
  | cons x xs ih =>
      rw [List.map_cons, List.sum_cons, ih, List.map_cons, List.sum_cons,
        List.sum_cons, List.length_cons]
      push_cast
      ring

theorem sum_zipWith_sub (xs ys : List ℚ) (a c : ℚ) (h : xs.length = ys.length) :
    (List.zipWith (fun x y => (x - a) * (y - c)) xs ys).sum =
      (List.zipWith (fun x y => x * y) xs ys).sum - a * ys.sum - c * xs.sum +
        (xs.length : ℚ) * (a * c) := by
  induction xs generalizing ys with
  | nil =>
      cases ys with
      | nil => simp
      | cons y ys => simp at h
  | cons x xs ih =>
      cases ys with
      | nil => simp at h
      | cons y ys =>
          have h' : xs.length = ys.length := by simpa using h
          rw [List.zipWith_cons_cons, List.sum_cons, ih ys h',
            List.zipWith_cons_cons, List.sum_cons, List.sum_cons,
            List.sum_cons, List.length_cons]
          push_cast
          ring

theorem length_ne_zero_q {xs : List ℚ} (hn : xs ≠ []) :
    (xs.length : ℚ) ≠ 0 := by
  have h : xs.length ≠ 0 := by
    simpa [List.length_eq_zero] using hn
  exact_mod_cast h

theorem sxx_scaled (xs : List ℚ) (hn : xs ≠ []) :
    (xs.length : ℚ) * sxx xs =
      (xs.length : ℚ) * (xs.map (fun x => x ^ 2)).sum - xs.sum ^ 2 := by
  have hlen := length_ne_zero_q hn
  rw [sxx, sum_map_sq_sub xs (listMean xs), listMean]
  field_simp
  ring

theorem sxy_scaled (xs ys : List ℚ) (h : xs.length = ys.length)
    (hn : xs ≠ []) :
    (xs.length : ℚ) * sxy xs ys =
      (xs.length : ℚ) * (List.zipWith (fun x y => x * y) xs ys).sum -
        xs.sum * ys.sum := by
  have hlen := length_ne_zero_q hn
  rw [sxy, sum_zipWith_sub xs ys (listMean xs) (listMean ys) h, listMean,
    listMean, ← h]
  field_simp
  ring

theorem specBeta_eq_capmSlope (xs ys : List ℚ) (h : xs.length = ys.length)
    (hn : xs ≠ []) (hx : sxx xs ≠ 0) :
    specBeta xs ys = capmSlope xs ys := by
  have hlen := length_ne_zero_q hn
  rw [capmSlope, if_neg hx, specBeta, ← sxx_scaled xs hn,
    ← sxy_scaled xs ys h hn, mul_div_mul_left _ _ hlen]

theorem specSharedFit_eq (xs ys : List ℚ) (h : xs.length = ys.length)
    (hn : xs ≠ []) (hx : sxx xs ≠ 0) :
    (specSharedFit xs ys).beta = capmSlope xs ys ∧
    (specSharedFit xs ys).alpha = capmIntercept xs ys := by
  have hlen := length_ne_zero_q hn
  have hb : (specSharedFit xs ys).beta = capmSlope xs ys :=
    specBeta_eq_capmSlope xs ys h hn hx
  refine ⟨hb, ?_⟩
  rw [show (specSharedFit xs ys).alpha =
    (ys.sum - specBeta xs ys * xs.sum) / (xs.length : ℚ) from rfl]
  rw [specBeta_eq_capmSlope xs ys h hn hx, capmIntercept, listMean, listMean,
    ← h]
  field_simp

/-- C3: for every ticker with at least 2 rows and non-degenerate excess
benchmark returns, `calc_alphas` returns the intercept and `calc_betas`
the slope of the same ordinary-least-squares fit of
`y = return - risk_free_rate` on `x = bench_return - risk_free_rate` over
that ticker's rows: both lookups agree exactly with the two components of
one shared fit (`specSharedFit`) computed once from those rows. -/
theorem capm_shared_fit (sp : StockPerformance) (t : String)
    (h2 : 2 ≤ (rowsOf sp.daily_returns t).length)
    (hx : sxx ((rowsOf sp.daily_returns t).map
      (fun r => r.bench_return - sp.risk_free_rate)) ≠ 0) :
    (calc_alphas sp).lookup t = some (some ((specSharedFit
      ((rowsOf sp.daily_returns t).map
        (fun r => r.bench_return - sp.risk_free_rate))
      ((rowsOf sp.daily_returns t).map
        (fun r => r.ret - sp.risk_free_rate))).alpha)) ∧
    (calc_betas sp).lookup t = some (some ((specSharedFit
      ((rowsOf sp.daily_returns t).map
        (fun r => r.bench_return - sp.risk_free_rate))
      ((rowsOf sp.daily_returns t).map
        (fun r => r.ret - sp.risk_free_rate))).beta)) := by
  have hne : rowsOf sp.daily_returns t ≠ [] := by
    intro hcon
    rw [hcon] at h2
    simp at h2
  have hmem : t ∈ tickersOf sp.daily_returns := by
    rw [mem_tickersOf]
    by_contra hnm
    exact hne ((rowsOf_eq_nil_iff _ _).mpr hnm)
  have hlen : ((rowsOf sp.daily_returns t).map
      (fun r => r.bench_return - sp.risk_free_rate)).length =
    ((rowsOf sp.daily_returns t).map
      (fun r => r.ret - sp.risk_free_rate)).length := by
    simp
  have hxne : ((rowsOf sp.daily_returns t).map
      (fun r => r.bench_return - sp.risk_free_rate)) ≠ [] := by
    simpa using hne
  obtain ⟨hb, ha⟩ := specSharedFit_eq _ _ hlen hxne hx
  constructor
  · rw [calc_alphas_lookup sp t hmem, capm_regression_alpha, ha]
  · rw [calc_betas_lookup sp t hmem, capm_regression_beta, hb]

/-- A two-row, non-degenerate table for the CAPM shared-fit witness. -/
def spC3 : StockPerformance :=
  mkStockPerformance [⟨0, "X", 1/100, 2/100⟩, ⟨1, "X", 3/100, 5/100⟩] 0 9

theorem capm_shared_fit_witness :
    (calc_alphas spC3).lookup "X" = some (some (-1007/300000)) ∧
    (calc_betas spC3).lookup "X" = some (some (2/3)) := by
  have hrows : rowsOf spC3.daily_returns "X" =
      [⟨0, "X", 1/100, 2/100⟩, ⟨1, "X", 3/100, 5/100⟩] := by
    simp +decide [spC3, mkStockPerformance, rowsOf, List.filter]
  have h2 : 2 ≤ (rowsOf spC3.daily_returns "X").length := by
    rw [hrows]
    simp
  have hx : sxx ((rowsOf spC3.daily_returns "X").map
      (fun r => r.bench_return - spC3.risk_free_rate)) ≠ 0 := by
    rw [hrows]
    norm_num [sxx, listMean, spC3, mkStockPerformance]
  have h := capm_shared_fit spC3 "X" h2 hx
  refine ⟨?_, ?_⟩
  · rw [h.1, hrows]
    norm_num [specSharedFit, specBeta, spC3, mkStockPerformance]
  · rw [h.2, hrows]
    norm_num [specSharedFit, specBeta, spC3, mkStockPerformance]

/-- C8: for fixed positive `days_in_year` and an `interval` of at least one
day, the per-ticker cagr float `(1 + tr) ** (days_in_year / interval) - 1`
is strictly increasing in the ticker's total return: if two tickers have
total returns `a < b` (with `a ≥ -1`, the range total returns take when
every `1 + r ≥ 0`), the real value of the first cagr cell is strictly
below that of the second. -/
theorem cagr_monotone (sp : StockPerformance) (t u : String) (a b : ℚ)
    (ca cb : CagrVal)
    (ht : (calc_total_returns sp).lookup t = some a)
    (hu : (calc_total_returns sp).lookup u = some b)
    (hca : (calc_cagrs sp).lookup t = some ca)
    (hcb : (calc_cagrs sp).lookup u = some cb)
    (hdays : 0 < sp.days_in_year) (hint : 1 ≤ sp.interval)
    (ha : -1 ≤ a) (hab : a < b) :
    (ca.base : ℝ) ^ (ca.exp : ℝ) - 1 < (cb.base : ℝ) ^ (cb.exp : ℝ) - 1 := by
  have hca' : ca = ⟨1 + a, sp.days_in_year / (sp.interval : ℚ)⟩ := by
    rw [calc_cagrs_lookup, ht] at hca
    simpa using hca.symm
  have hcb' : cb = ⟨1 + b, sp.days_in_year / (sp.interval : ℚ)⟩ := by
    rw [calc_cagrs_lookup, hu] at hcb
    simpa using hcb.symm
  subst hca'
  subst hcb'
  apply sub_lt_sub_right
  apply Real.rpow_lt_rpow
  · show (0 : ℝ) ≤ ((1 + a : ℚ) : ℝ)
    have ha' : ((-1 : ℚ) : ℝ) ≤ (a : ℝ) := by exact_mod_cast ha
    push_cast at ha' ⊢
    linarith
  · show ((1 + a : ℚ) : ℝ) < ((1 + b : ℚ) : ℝ)
    have hab' : (a : ℝ) < (b : ℝ) := by exact_mod_cast hab
    push_cast
    linarith
  · show (0 : ℝ) < ((sp.days_in_year / (sp.interval : ℚ) : ℚ) : ℝ)
    have hd : (0 : ℝ) < (sp.days_in_year : ℝ) := by exact_mod_cast hdays
    have hi : (1 : ℝ) ≤ ((sp.interval : ℤ) : ℝ) := by exact_mod_cast hint
    push_cast
    apply div_pos hd
    linarith

/-- A two-ticker table (`A` total return 0.1, `B` total return 0.2) for the
monotonicity witness. -/
def spC8 : StockPerformance :=
  mkStockPerformance [⟨0, "A", 1/10, 1/10⟩, ⟨1, "B", 2/10, 1/10⟩] 0 9

theorem cagr_monotone_witness :
    ((11/10 : ℚ) : ℝ) ^ (((1461/40 : ℚ) : ℝ)) - 1 <
      ((12/10 : ℚ) : ℝ) ^ (((1461/40 : ℚ) : ℝ)) - 1 := by
  have hrowsA : rowsOf spC8.daily_returns "A" = [⟨0, "A", 1/10, 1/10⟩] := by
    simp +decide [spC8, mkStockPerformance, rowsOf, List.filter]
  have hrowsB : rowsOf spC8.daily_returns "B" = [⟨1, "B", 2/10, 1/10⟩] := by
    simp +decide [spC8, mkStockPerformance, rowsOf, List.filter]
  have hA : (calc_total_returns spC8).lookup "A" = some (1/10) := by
    have h := lookup_map_key (tickersOf spC8.daily_returns)
      (fun u => (((rowsOf spC8.daily_returns u).map fun r => 1 + r.ret).prod)
        - 1) "A"
    rw [show calc_total_returns spC8 = (tickersOf spC8.daily_returns).map
      (fun u => (u, (((rowsOf spC8.daily_returns u).map
        fun r => 1 + r.ret).prod) - 1)) from rfl, h, if_pos (by decide),
      hrowsA]
    norm_num
  have hB : (calc_total_returns spC8).lookup "B" = some (2/10) := by
    have h := lookup_map_key (tickersOf spC8.daily_returns)
      (fun u => (((rowsOf spC8.daily_returns u).map fun r => 1 + r.ret).prod)
        - 1) "B"
    rw [show calc_total_returns spC8 = (tickersOf spC8.daily_returns).map
      (fun u => (u, (((rowsOf spC8.daily_returns u).map
        fun r => 1 + r.ret).prod) - 1)) from rfl, h, if_pos (by decide),
      hrowsB]
    norm_num
  have hcA : (calc_cagrs spC8).lookup "A" = some ⟨11/10, 1461/40⟩ := by
    rw [calc_cagrs_lookup, hA]
    norm_num [spC8, mkStockPerformance, CagrVal.mk.injEq]
  have hcB : (calc_cagrs spC8).lookup "B" = some ⟨12/10, 1461/40⟩ := by
    rw [calc_cagrs_lookup, hB]
    norm_num [spC8, mkStockPerformance, CagrVal.mk.injEq]
  have h := cagr_monotone spC8 "A" "B" (1/10) (2/10) ⟨11/10, 1461/40⟩
    ⟨12/10, 1461/40⟩ hA hB hcA hcB
    (by norm_num [spC8, mkStockPerformance])
    (by norm_num [spC8, mkStockPerformance])
    (by norm_num) (by norm_num)
  exact h
